import Mathlib

/-!
# Verification of the democracy CLI against its specification

This file gives a shallow embedding of `src/main.rs` of the `democracy_cli`
repository: a command-line tool that builds Substrate transactions
(remark preimages, governance proposals, votes), submits them, and tracks
finalization events.  Pure computations (vote-byte packing, SCALE payload
encoding, hex parsing, the BLAKE2b-256 digest) are embedded as executable
Lean functions; the effectful command flow of `main` is embedded as a
function from an oracle `World` (the results every external call would
return) to the list of performed `Effect`s and the process `ExitResult`.
Machine integers are modelled as `Nat` with explicit `% 2 ^ w` where
overflow matters.
-/

deriving instance DecidableEq for Except

/-! ## Identity resolution (`impl From<&str> for User`, src/main.rs:56-64) -/

/-- The two dev users supported by the program (src/main.rs:39-42). -/
inductive User
  | alice
  | bob
deriving DecidableEq, Repr

/-- The error the specification says identity resolution should return.
The source code never actually constructs it: it panics instead. -/
inductive IdentityError
  | unknownIdentity
deriving DecidableEq, Repr

/-- Outcome of resolving a `--user` string: a user, a recoverable error
returned to the caller, or a process abort. -/
inductive ResolveOutcome
  | ok (u : User)
  | err (e : IdentityError)
  | panicked (msg : String)
deriving DecidableEq, Repr

/-- Embedding of `impl From<&str> for User` (src/main.rs:56-64): `"alice"` and `"bob"`
map to the two users; every other string hits `panic!("invalid user")`,
which aborts the process. -/
def userFromStr (s : String) : ResolveOutcome :=
  if s = "alice" then .ok .alice
  else if s = "bob" then .ok .bob
  else .panicked "invalid user"

/-! ## Hex decoding and `H256::from_slice` (src/main.rs:195) -/

/-- Errors of the `hex` crate's `hex::decode` (surfaced through `?` by
the `MakeProposal` branch). -/
inductive HashError
  | oddLength
  | invalidChar
deriving DecidableEq, Repr

/-- Value of a single hex digit, `none` for a non-hex character. -/
def hexVal (c : Char) : Option Nat :=
  if '0' ≤ c ∧ c ≤ '9' then some (c.toNat - '0'.toNat)
  else if 'a' ≤ c ∧ c ≤ 'f' then some (c.toNat - 'a'.toNat + 10)
  else if 'A' ≤ c ∧ c ≤ 'F' then some (c.toNat - 'A'.toNat + 10)
  else none

/-- Decode a list of hex characters two at a time into bytes, as
`hex::decode` does after its length check. -/
def hexDecodePairs : List Char → Except HashError (List Nat)
  | [] => .ok []
  | [_] => .error .oddLength
  | a :: b :: rest =>
    match hexVal a, hexVal b with
    | some x, some y =>
      match hexDecodePairs rest with
      | .ok bs => .ok ((16 * x + y) :: bs)
      | .error e => .error e
    | _, _ => .error .invalidChar

/-- Embedding of `hex::decode`: rejects odd-length input, then decodes pairs of hex
digits into bytes. -/
def hexDecode (s : String) : Except HashError (List Nat) :=
  if s.length % 2 = 1 then .error .oddLength else hexDecodePairs s.data

/-- How the `anyhow` error for a failed hex decode is rendered. -/
def hashErrString : HashError → String
  | .oddLength => "Odd number of digits"
  | .invalidChar => "Invalid character"

/-- The panic message of `H256::from_slice` on a slice whose length is
not 32. -/
def h256PanicMsg : String := "cannot convert slice to H256"

/-- Outcome of turning the user-supplied hash string into an `H256`. -/
inductive ParseHashOutcome
  | ok (h : List Nat)
  | err (e : HashError)
  | panicked (msg : String)
deriving DecidableEq, Repr

/-- Embedding of `H256::from_slice(&hex::decode(hash)?)` (src/main.rs:195): a hex
decoding error is returned to the caller through `?`; a decoded slice of
any length other than 32 makes `H256::from_slice` panic; a 32-byte slice
succeeds. -/
def parseHash (s : String) : ParseHashOutcome :=
  match hexDecode s with
  | .error e => .err e
  | .ok bs => if bs.length = 32 then .ok bs else .panicked h256PanicMsg

/-! ## BLAKE2b-256 (`BlakeTwo256::hash`, src/main.rs:184)

The hasher itself lives in the `subxt`/`sp-core` dependency; it is the
standard BLAKE2b digest with a 32-byte output, embedded here in full on
bytes modelled as `Nat`s below 256, with 64-bit words as `Nat` reduced
`% 2 ^ 64`. -/

/-- 64-bit wrapping addition. -/
def add64 (a b : Nat) : Nat := (a + b) % 2 ^ 64

/-- 64-bit right rotation. -/
def rotr64 (x n : Nat) : Nat := ((x >>> n) ||| (x <<< (64 - n))) % 2 ^ 64

/-- The BLAKE2b initialization vector. -/
def blakeIV : List Nat :=
  [0x6a09e667f3bcc908, 0xbb67ae8584caa73b, 0x3c6ef372fe94f82b, 0xa54ff53a5f1d36f1,
   0x510e527fade682d1, 0x9b05688c2b3e6c1f, 0x1f83d9abfb41bd6b, 0x5be0cd19137e2179]

/-- Initial state for an unkeyed 32-byte digest: the IV with its first
word xored with the parameter block `0x0101_0020` (depth 1, fanout 1,
digest length 32). -/
def blakeInit : List Nat :=
  Nat.xor 0x6a09e667f3bcc908 0x01010020 :: blakeIV.drop 1

/-- The BLAKE2b message schedule: ten permutations of 0..15. -/
def blakeSigma : List (List Nat) :=
  [[0, 1, 2, 3, 4, 5, 6, 7, 8, 9, 10, 11, 12, 13, 14, 15],
   [14, 10, 4, 8, 9, 15, 13, 6, 1, 12, 0, 2, 11, 7, 5, 3],
   [11, 8, 12, 0, 5, 2, 15, 13, 10, 14, 3, 6, 7, 1, 9, 4],
   [7, 9, 3, 1, 13, 12, 11, 14, 2, 6, 5, 10, 4, 0, 15, 8],
   [9, 0, 5, 7, 2, 4, 10, 15, 14, 1, 11, 12, 6, 8, 3, 13],
   [2, 12, 6, 10, 0, 11, 8, 3, 4, 13, 7, 5, 15, 14, 1, 9],
   [12, 5, 1, 15, 14, 13, 4, 10, 0, 7, 6, 3, 9, 2, 8, 11],
   [13, 11, 7, 14, 12, 1, 3, 9, 5, 0, 15, 4, 8, 6, 2, 10],
   [6, 15, 14, 9, 11, 3, 0, 8, 12, 2, 13, 7, 1, 4, 10, 5],
   [10, 2, 8, 4, 7, 6, 1, 5, 15, 11, 9, 14, 3, 12, 13, 0]]

/-- The BLAKE2b quarter-round mixing function `G` on the 16-word work
vector `v`, acting at positions `a b c d` with message words `x y`. -/
def gmix (v : List Nat) (a b c d : Nat) (x y : Nat) : List Nat :=
  let va := add64 (add64 (v.getD a 0) (v.getD b 0)) x
  let vd := rotr64 (Nat.xor (v.getD d 0) va) 32
  let vc := add64 (v.getD c 0) vd
  let vb := rotr64 (Nat.xor (v.getD b 0) vc) 24
  let va2 := add64 (add64 va vb) y
  let vd2 := rotr64 (Nat.xor vd va2) 16
  let vc2 := add64 vc vd2
  let vb2 := rotr64 (Nat.xor vb vc2) 63
  (((v.set a va2).set d vd2).set c vc2).set b vb2

/-- One BLAKE2b round: eight `G` applications with the round's message
permutation. -/
def blakeRound (m : List Nat) (v : List Nat) (i : Nat) : List Nat :=
  let s := blakeSigma.getD (i % 10) []
  let mg := fun j => m.getD (s.getD j 0) 0
  let v1 := gmix v 0 4 8 12 (mg 0) (mg 1)
  let v2 := gmix v1 1 5 9 13 (mg 2) (mg 3)
  let v3 := gmix v2 2 6 10 14 (mg 4) (mg 5)
  let v4 := gmix v3 3 7 11 15 (mg 6) (mg 7)
  let v5 := gmix v4 0 5 10 15 (mg 8) (mg 9)
  let v6 := gmix v5 1 6 11 12 (mg 10) (mg 11)
  let v7 := gmix v6 2 7 8 13 (mg 12) (mg 13)
  gmix v7 3 4 9 14 (mg 14) (mg 15)

/-- A little-endian 64-bit word from up to eight bytes. -/
def word8LE (bs : List Nat) : Nat :=
  bs.foldr (fun b acc => b % 256 + 256 * acc) 0

/-- The sixteen message words of a (zero-padded) 128-byte block. -/
def blockWords (bs : List Nat) : List Nat :=
  (List.range 16).map (fun i => word8LE ((bs.drop (8 * i)).take 8))

/-- The BLAKE2b compression function: state `h` (8 words), message block
`m` (16 words), byte counter `t`, finalization flag `last`. -/
def compress (h m : List Nat) (t : Nat) (last : Bool) : List Nat :=
  let v0 := h ++ blakeIV
  let v1 := v0.set 12 (Nat.xor (v0.getD 12 0) (t % 2 ^ 64))
  let v2 := v1.set 13 (Nat.xor (v1.getD 13 0) (t / 2 ^ 64 % 2 ^ 64))
  let v3 := if last then v2.set 14 (Nat.xor (v2.getD 14 0) (2 ^ 64 - 1)) else v2
  let v4 := (List.range 12).foldl (blakeRound m) v3
  (List.range 8).map (fun i => Nat.xor (h.getD i 0) (Nat.xor (v4.getD i 0) (v4.getD (i + 8) 0)))

/-- Chunking worker: split the message into 128-byte chunks; the final
chunk (possibly the whole message, possibly empty) is at most 128 bytes,
and there is always at least one chunk. -/
def chunksAux : Nat → List Nat → List (List Nat)
  | 0, msg => [msg]
  | fuel + 1, msg =>
    if msg.length ≤ 128 then [msg]
    else msg.take 128 :: chunksAux fuel (msg.drop 128)

/-- Split a message into 128-byte chunks (the fuel, at least the number
of bytes, is enough since every step consumes 128 bytes). -/
def chunks128 (msg : List Nat) : List (List Nat) := chunksAux msg.length msg

/-- Run the compression function over the chunks: every chunk but the
last is compressed with the running byte counter and `last := false`;
the final chunk is compressed with the total message length and
`last := true`. -/
def blakeLoop (h : List Nat) (processed : Nat) : List (List Nat) → List Nat
  | [] => h
  | [c] => compress h (blockWords c) (processed + c.length) true
  | c :: c2 :: rest =>
    blakeLoop (compress h (blockWords c) (processed + 128) false) (processed + 128) (c2 :: rest)

/-- Eight little-endian bytes of a 64-bit word. -/
def bytes8LE (w : Nat) : List Nat :=
  (List.range 8).map (fun i => w >>> (8 * i) % 256)

/-- The BLAKE2b-256 digest of a byte string: the first four state words,
serialized little-endian, giving 32 bytes. -/
def blake2b256 (msg : List Nat) : List Nat :=
  (((blakeLoop blakeInit 0 (chunks128 msg)).take 4).map bytes8LE).flatten

/-! ## SCALE encoding of the transaction payloads

The call encodings are produced by `codec::Encode` on types generated
from `metadata.scale` (src/main.rs:1-2), a file that is not part of the
source tree.  They follow the standard SCALE rules: an enum is its
variant index byte followed by the encoded fields, a `Vec<u8>` is a
compact length followed by the bytes, `u32`/`u128` are fixed-width
little-endian, and `#[compact]` arguments use the compact integer
encoding. -/

/-- Worker for `byteLen`: count base-256 digits, with enough fuel. -/
def byteLenAux : Nat → Nat → Nat
  | 0, _ => 0
  | fuel + 1, n => if n = 0 then 0 else byteLenAux fuel (n / 256) + 1

/-- Minimal number of bytes needed to represent `n` (with 0 for 0). -/
def byteLen (n : Nat) : Nat := byteLenAux n n

/-- Little-endian bytes of `n`, `k` bytes wide. -/
def bytesLE (k n : Nat) : List Nat :=
  (List.range k).map (fun i => n >>> (8 * i) % 256)

/-- The SCALE compact integer encoding. -/
def encodeCompact (n : Nat) : List Nat :=
  if n < 64 then [n <<< 2]
  else if n < 16384 then bytesLE 2 ((n <<< 2) ||| 1)
  else if n < 2 ^ 30 then bytesLE 4 ((n <<< 2) ||| 2)
  else ((byteLen n - 4) <<< 2 ||| 3) :: bytesLE (byteLen n) n

/-- Fixed-width SCALE encoding of a `u32`. -/
def encodeU32 (n : Nat) : List Nat := bytesLE 4 n

/-- Fixed-width SCALE encoding of a `u128`. -/
def encodeU128 (n : Nat) : List Nat := bytesLE 16 n

/-- Modelled from the spec: the pallet indices of the kitchensink runtime
come from `metadata.scale`, which is missing from the source tree.  The
concrete values are fixed constants of the generated code and no claim
depends on them. -/
def systemPalletIndex : Nat := 0

/-- Modelled from the spec: call index of `frame_system::Call::remark`
in the generated runtime code. -/
def systemRemarkCallIndex : Nat := 0

/-- Modelled from the spec: pallet index of `pallet_preimage` in the
generated runtime code. -/
def preimagePalletIndex : Nat := 32

/-- Modelled from the spec: call index of `note_preimage` in the
generated runtime code. -/
def notePreimageCallIndex : Nat := 0

/-- Modelled from the spec: pallet index of `pallet_democracy` in the
generated runtime code. -/
def democracyPalletIndex : Nat := 23

/-- Modelled from the spec: call index of `democracy::propose` in the
generated runtime code. -/
def democracyProposeCallIndex : Nat := 0

/-- Modelled from the spec: call index of `democracy::vote` in the
generated runtime code. -/
def democracyVoteCallIndex : Nat := 2

/-- Encoding of `kitchensink::Call::System(frame_system::Call::remark { remark })`
(src/main.rs:178-183): outer runtime-call variant byte, inner pallet-call
variant byte, then the SCALE `Vec<u8>`. -/
def systemRemarkCall (remark : List Nat) : List Nat :=
  [systemPalletIndex, systemRemarkCallIndex] ++ encodeCompact remark.length ++ remark

/-- The call data of `preimage.note_preimage(image)` (src/main.rs:188-189). -/
def note_preimage (image : List Nat) : List Nat :=
  [preimagePalletIndex, notePreimageCallIndex] ++ encodeCompact image.length ++ image

/-- SCALE encoding of `Bounded::Lookup { hash, len }` (src/main.rs:196):
variant index 2, the 32 hash bytes, then the `u32` length. -/
def encodeBoundedLookup (hash : List Nat) (len : Nat) : List Nat :=
  2 :: hash ++ encodeU32 len

/-- The deposit constant baked into proposal construction
(src/main.rs:199). -/
def proposalDeposit : Nat := 1000000000000000000

/-- The call data of `democracy.propose(Bounded::Lookup { hash, len }, deposit)`
(src/main.rs:196-199): the proposal argument followed by the compact
deposit. -/
def propose (hash : List Nat) (len : Nat) (deposit : Nat) : List Nat :=
  [democracyPalletIndex, democracyProposeCallIndex]
    ++ encodeBoundedLookup hash len ++ encodeCompact deposit

/-! ## Vote construction (`create_vote`, src/main.rs:86-100) -/

/-- Embedding of `AccountVote::Standard { vote: Vote(byte), balance }`: the packed
vote byte and the balance. -/
structure AccountVoteStandard where
  vote : Nat
  balance : Nat
deriving DecidableEq, Repr

/-- The arguments of the `democracy.vote` call built by `create_vote`:
the referendum index and the standard vote. -/
structure VoteCall where
  refIndex : Nat
  vote : AccountVoteStandard
deriving DecidableEq, Repr

/-- Embedding of `create_vote` (src/main.rs:86-100): packs the vote byte as
`conviction | (aye ? 0b1000_0000 : 0)` with no masking of the conviction,
and wraps it with the balance in `AccountVote::Standard`. -/
def create_vote (refIndex : Nat) (aye : Bool) (conviction : Nat) (balance : Nat) : VoteCall :=
  let v := conviction ||| (if aye then 128 else 0)
  { refIndex, vote := { vote := v, balance } }

/-- The call data of `democracy.vote(ref_index, vote)` (src/main.rs:99):
compact referendum index, then `AccountVote::Standard` (variant 0, the
vote byte, the `u128` balance). -/
def voteTx (vc : VoteCall) : List Nat :=
  [democracyPalletIndex, democracyVoteCallIndex]
    ++ encodeCompact vc.refIndex ++ [0, vc.vote.vote % 256] ++ encodeU128 vc.vote.balance

/-! ## The event watcher (`Program::wait_for_event`, src/main.rs:123-135) -/

/-- The identity of an event type: the stable (pallet, event) name pair
that `StaticEvent` matching uses. -/
structure EventTy where
  pallet : String
  name : String
deriving DecidableEq, Repr

/-- A decoded event of a finalized block: its type identity and payload
bytes. -/
structure Event where
  ty : EventTy
  data : List Nat
deriving DecidableEq, Repr

/-- Identity of `democracy::events::Tabled` (src/main.rs:204). -/
def tabledEv : EventTy := ⟨"Democracy", "Tabled"⟩

/-- Identity of `democracy::events::Started` (src/main.rs:209). -/
def startedEv : EventTy := ⟨"Democracy", "Started"⟩

/-- Identity of `democracy::events::Passed` (src/main.rs:226). -/
def passedEv : EventTy := ⟨"Democracy", "Passed"⟩

/-- Identity of `democracy::events::Voted` (src/main.rs:221). -/
def votedEv : EventTy := ⟨"Democracy", "Voted"⟩

/-- Embedding of `find_first::<Ev>()`: the first event of the list whose type matches,
scanning in order. -/
def find_first (t : EventTy) (evs : List Event) : Option Event :=
  evs.find? (fun e => e.ty = t)

/-- Result of `Program::wait_for_event`: the first matching event, the
`anyhow!("event not found")` error when the stream ends, or a stream /
subscription error propagated by the `try_` combinators. -/
inductive WaitResult
  | found (e : Event)
  | notFound
  | streamErr (msg : String)
deriving DecidableEq, Repr

/-- Embedding of `Program::wait_for_event` (src/main.rs:123-135): scan the finalized
block stream in arrival order; each stream item is either a block's
decoded event list or an error.  The first block containing a matching
event yields that block's first match and stops; an error item is
returned as an error; an exhausted stream yields `notFound`. -/
def wait_for_event (t : EventTy) : List (Except String (List Event)) → WaitResult
  | [] => .notFound
  | .error m :: _ => .streamErr m
  | .ok evs :: rest =>
    match find_first t evs with
    | some e => .found e
    | none => wait_for_event t rest

/-- The first matching event over a whole (error-free) stream, scanning
blocks and each block's event list in order. -/
def firstMatch (t : EventTy) (bs : List (List Event)) : Option Event :=
  find_first t bs.flatten

/-! ## The command flow of `main` (src/main.rs:155-233)

The effectful flow is embedded as a function of an oracle `World`: the
world fixes the result every external call would return (connection,
storage queries, submission acceptance, finalization, and the two event
streams a command may subscribe to).  Running a command produces the
ordered list of performed `Effect`s and the process `ExitResult`. -/

/-- A console message printed by the program, carrying the data the
program reports. -/
inductive ReportItem
  | accountData
  | holdsData
  | freezesData
  | addingImage (image : List Nat)
  | waitingInBlock
  | preimageCreated (hash : List Nat) (len : Nat)
  | creatingProposal (hash : List Nat) (len : Nat)
  | proposalCreated
  | proposalTabled (r : WaitResult)
  | proposalStarted (r : WaitResult)
  | submittingVote
  | voteFinalized (e : Option Event)
  | proposalPassed (r : WaitResult)
deriving DecidableEq, Repr

/-- An observable effect performed by the program, in order. -/
inductive Effect
  | connect
  | storageQuery (pallet item : String)
  | submitTx (payload : List Nat)
  | waitEvent (t : EventTy)
  | report (r : ReportItem)
deriving DecidableEq, Repr

/-- The oracle for every external call a single command run can make. -/
structure World where
  /-- Result of `OnlineClient::from_url` (src/main.rs:118). -/
  connectRes : Except String Unit
  /-- Result of `storage().at_latest()` (src/main.rs:163). -/
  atLatestRes : Except String Unit
  /-- Result of the `system.account` fetch (src/main.rs:165-166). -/
  accountRes : Except String Unit
  /-- Result of the `balances.holds` fetch (src/main.rs:169-170). -/
  holdsRes : Except String Unit
  /-- Result of the `balances.freezes` fetch (src/main.rs:173-174). -/
  freezesRes : Except String Unit
  /-- Result of `sign_and_submit_then_watch_default` (src/main.rs:144). -/
  submitAccept : Except String Unit
  /-- Result of `wait_for_finalized_success` (src/main.rs:150): the
  extrinsic's events on success, or a submission / dispatch error. -/
  finalizeRes : Except String (List Event)
  /-- Result of the fallible event decode inside
  `events.find_first::<Voted>()` (src/main.rs:221): the `?` there
  propagates a decode failure to an error exit even after finalization
  succeeded. -/
  voteFindRes : Except String Unit
  /-- The finalized-block stream seen by the first `wait_for_event`
  subscription of the command. -/
  stream1 : List (Except String (List Event))
  /-- The finalized-block stream seen by the second `wait_for_event`
  subscription of the command. -/
  stream2 : List (Except String (List Event))

/-- How a command run terminates the process: `main` returning `Ok` is a
success exit, `main` returning `Err` is an error exit with a message, and
a panic is an abort. -/
inductive ExitResult
  | success
  | failure (msg : String)
  | panicked (msg : String)
deriving DecidableEq, Repr

/-- The parsed subcommand (src/main.rs:68-83).  The remark string is
modelled by its bytes. -/
inductive Cmd
  | showBalance
  | createRemarkPreimage (remark : List Nat)
  | makeProposal (hash : String) (len : Nat)
  | voteCmd (index : Nat) (balance : Nat) (conviction : Nat)
  | trackProposalStatus
deriving DecidableEq, Repr

/-- Embedding of `Program::submit_and_watch` (src/main.rs:138-152): submit the signed
payload; if the node accepts it, print the waiting message and hand back
the finalization result (the extrinsic's events, or an error, including
an on-chain dispatch failure). -/
def submit_and_watch (w : World) (payload : List Nat) :
    List Effect × Except String (List Event) :=
  match w.submitAccept with
  | .error m => ([.submitTx payload], .error m)
  | .ok _ => ([.submitTx payload, .report .waitingInBlock], w.finalizeRes)

/-- The body of `main`'s `match command` (src/main.rs:160-230), one
branch per subcommand, producing the performed actions and the way the
process exits.  Failures propagated with `?` end the run with an error
exit; the event waits of `MakeProposal` and `TrackProposalStatus` are
*not* propagated: their results are only printed. -/
def runCommand (w : World) : Cmd → List Effect × ExitResult
  | .showBalance =>
    match w.atLatestRes with
    | .error m => ([], .failure m)
    | .ok _ =>
      match w.accountRes with
      | .error m => ([.storageQuery "System" "Account"], .failure m)
      | .ok _ =>
        match w.holdsRes with
        | .error m =>
          ([.storageQuery "System" "Account", .report .accountData,
            .storageQuery "Balances" "Holds"], .failure m)
        | .ok _ =>
          match w.freezesRes with
          | .error m =>
            ([.storageQuery "System" "Account", .report .accountData,
              .storageQuery "Balances" "Holds", .report .holdsData,
              .storageQuery "Balances" "Freezes"], .failure m)
          | .ok _ =>
            ([.storageQuery "System" "Account", .report .accountData,
              .storageQuery "Balances" "Holds", .report .holdsData,
              .storageQuery "Balances" "Freezes", .report .freezesData], .success)
  | .createRemarkPreimage remark =>
    let image := systemRemarkCall remark
    let sw := submit_and_watch w (note_preimage image)
    match sw.2 with
    | .error m => (.report (.addingImage image) :: sw.1, .failure m)
    | .ok _ =>
      (.report (.addingImage image) :: sw.1
         ++ [.report (.preimageCreated (blake2b256 image) image.length)], .success)
  | .makeProposal hashStr len =>
    match parseHash hashStr with
    | .err e => ([], .failure (hashErrString e))
    | .panicked m => ([], .panicked m)
    | .ok h =>
      let sw := submit_and_watch w (propose h len proposalDeposit)
      let pre := .report (.creatingProposal h len) :: sw.1
      match sw.2 with
      | .error m => (pre, .failure m)
      | .ok _ =>
        let t1 := wait_for_event tabledEv w.stream1
        let t2 := wait_for_event startedEv w.stream2
        (pre ++ [.report .proposalCreated,
                 .waitEvent tabledEv, .report (.proposalTabled t1),
                 .waitEvent startedEv, .report (.proposalStarted t2)], .success)
  | .voteCmd index balance conviction =>
    let vc := create_vote index true conviction balance
    let sw := submit_and_watch w (voteTx vc)
    let pre := Effect.report .submittingVote :: sw.1
    match sw.2 with
    | .error m => (pre, .failure m)
    | .ok evs =>
      match w.voteFindRes with
      | .error m => (pre, .failure m)
      | .ok _ =>
        (pre ++ [.report (.voteFinalized (find_first votedEv evs))], .success)
  | .trackProposalStatus =>
    let p := wait_for_event passedEv w.stream1
    ([.waitEvent passedEv, .report (.proposalPassed p)], .success)

/-- Embedding of `main` (src/main.rs:155-233): parse the user (a bad `--user` value
panics during CLI parsing, before anything else runs), connect to the
node (a failure is an error exit), then dispatch the subcommand. -/
def runMain (w : World) (userStr : String) (cmd : Cmd) : List Effect × ExitResult :=
  match userFromStr userStr with
  | .panicked m => ([], .panicked m)
  | .err _ => ([], .failure "unknown identity")
  | .ok _ =>
    match w.connectRes with
    | .error m => ([.connect], .failure m)
    | .ok _ =>
      let r := runCommand w cmd
      (.connect :: r.1, r.2)

/-- Holds exactly when none of the actions of the list is a transaction
submission. -/
def isSubmit : Effect → Bool
  | .submitTx _ => true
  | _ => false

/-- Recognizes a read-only storage query action. -/
def isStorageQuery : Effect → Bool
  | .storageQuery _ _ => true
  | _ => false

/-- Recognizes an event-wait subscription action. -/
def isWait : Effect → Bool
  | .waitEvent _ => true
  | _ => false

/-- Number of transaction submissions in a trace. -/
def countSubmits (as : List Effect) : Nat := (as.filter isSubmit).length

/-- Number of read-only storage queries in a trace. -/
def countStorageQueries (as : List Effect) : Nat := (as.filter isStorageQuery).length

/-- Number of event-wait subscriptions in a trace. -/
def countWaits (as : List Effect) : Nat := (as.filter isWait).length

/-- The exact condition under which a run of `main` exits successfully:
the connection and, per command, every `?`-propagated step must succeed.
Note that the event-stream fields `stream1`/`stream2` do not occur here:
event-wait failures never affect the exit status. -/
def mainSuccess (w : World) : Cmd → Bool
  | .showBalance =>
    w.connectRes.isOk && w.atLatestRes.isOk && w.accountRes.isOk
      && w.holdsRes.isOk && w.freezesRes.isOk
  | .createRemarkPreimage _ =>
    w.connectRes.isOk && w.submitAccept.isOk && w.finalizeRes.isOk
  | .makeProposal hashStr _ =>
    w.connectRes.isOk
      && (match parseHash hashStr with | .ok _ => true | _ => false)
      && w.submitAccept.isOk && w.finalizeRes.isOk
  | .voteCmd _ _ _ =>
    w.connectRes.isOk && w.submitAccept.isOk && w.finalizeRes.isOk
      && w.voteFindRes.isOk
  | .trackProposalStatus => w.connectRes.isOk

/-- A world where every external call succeeds and both event streams
are empty (the node produces no further finalized blocks). -/
def okWorld : World :=
  { connectRes := .ok (), atLatestRes := .ok (), accountRes := .ok ()
    holdsRes := .ok (), freezesRes := .ok (), submitAccept := .ok ()
    finalizeRes := .ok [], voteFindRes := .ok (), stream1 := [], stream2 := [] }

/-- A world where the node accepts the submission but finalization
reports an on-chain dispatch failure. -/
def dispatchFailWorld : World :=
  { okWorld with finalizeRes := .error "dispatch failed" }

/-- A 64-character hex string denoting the all-zero 32-byte hash. -/
def zeroHash64 : String :=
  "0000000000000000000000000000000000000000000000000000000000000000"

/-! ## Helper lemmas -/

/-- Scanning a concatenation with `find_first` takes the left result first. -/
theorem find_first_append (t : EventTy) (l1 l2 : List Event) :
    find_first t (l1 ++ l2) = (find_first t l1).or (find_first t l2) := by
  simp [find_first, List.find?_append]

/-- On an error-free stream, `wait_for_event` computes exactly the first
matching event of the flattened stream, or `notFound`. -/
theorem wait_for_event_ok_eq (t : EventTy) (bs : List (List Event)) :
    wait_for_event t (bs.map Except.ok) =
      (match firstMatch t bs with
       | some e => WaitResult.found e
       | none => WaitResult.notFound) := by
  induction bs with
  | nil => rfl
  | cons b rest ih =>
    simp only [List.map_cons, wait_for_event, firstMatch, List.flatten_cons, find_first_append]
    cases hb : find_first t b with
    | some e => simp [hb, Option.or]
    | none => simpa [hb, Option.or, firstMatch] using ih

/-- The compression function always returns an 8-word state. -/
theorem compress_length (h m : List Nat) (t : Nat) (last : Bool) :
    (compress h m t last).length = 8 := by
  simp [compress]

/-- The chunking worker never returns an empty chunk list. -/
theorem chunksAux_ne_nil (fuel : Nat) (msg : List Nat) : chunksAux fuel msg ≠ [] := by
  cases fuel with
  | zero => simp [chunksAux]
  | succ n =>
    unfold chunksAux
    split <;> simp

/-- The chunk list of a message is never empty. -/
theorem chunks128_ne_nil (msg : List Nat) : chunks128 msg ≠ [] :=
  chunksAux_ne_nil _ _

/-- Running the compression loop over at least one chunk yields an
8-word state. -/
theorem blakeLoop_length (cs : List (List Nat)) (h0 : List Nat) (p : Nat) (hne : cs ≠ []) :
    (blakeLoop h0 p cs).length = 8 := by
  induction cs generalizing h0 p with
  | nil => exact absurd rfl hne
  | cons c rest ih =>
    cases rest with
    | nil => simp [blakeLoop, compress_length]
    | cons c2 rest2 =>
      rw [blakeLoop]
      exact ih _ _ (by simp)

/-- Serializing four words little-endian gives 32 bytes. -/
theorem map_bytes8_flatten_length (xs : List Nat) (h : xs.length = 4) :
    ((xs.map bytes8LE).flatten).length = 32 := by
  cases xs with
  | nil => simp at h
  | cons a xs =>
    cases xs with
    | nil => simp at h
    | cons b xs =>
      cases xs with
      | nil => simp at h
      | cons c xs =>
        cases xs with
        | nil => simp at h
        | cons d xs =>
          cases xs with
          | nil => simp [bytes8LE]
          | cons e xs => simp at h

/-- The digest is 256 bits: `blake2b256` always returns 32 bytes. -/
theorem blake2b256_length (msg : List Nat) : (blake2b256 msg).length = 32 := by
  unfold blake2b256
  apply map_bytes8_flatten_length
  simp [List.length_take,
    blakeLoop_length (chunks128 msg) blakeInit 0 (chunks128_ne_nil msg)]

set_option maxRecDepth 10000 in
/-- Sanity check of the digest embedding: the official BLAKE2b-256 test
vector for the message `"abc"`. -/
theorem blake2b256_abc :
    blake2b256 [0x61, 0x62, 0x63] =
      [0xbd, 0xdd, 0x81, 0x3c, 0x63, 0x42, 0x39, 0x72, 0x31, 0x71, 0xef, 0x3f,
       0xee, 0x98, 0x57, 0x9b, 0x94, 0x96, 0x4e, 0x3b, 0xb1, 0xcb, 0x3e, 0x42,
       0x72, 0x62, 0xc8, 0xc0, 0x68, 0xd5, 0x23, 0x19] := by
  decide

/-- The packed byte of `create_vote` is the conviction or-ed with the aye
flag in bit 7, with no masking (src/main.rs:92). -/
theorem create_vote_byte (i b : Nat) (aye : Bool) (c : Nat) :
    (create_vote i aye c b).vote.vote = c ||| (if aye then 128 else 0) := rfl

/-! ## C1 -/

/-- C1, counterexample.  The claim says the packed vote byte has bit 7
set iff `aye` is true, for every conviction value in `0..=255`.  At
`conviction = 128` with `aye = false` the packed byte is `128`, whose
bit 7 is set even though `aye` is false, because `create_vote` performs
`conviction | 0` without masking the conviction's own high bit. -/
theorem c1_counterexample :
    Nat.testBit ((create_vote 0 false 128 0).vote.vote) 7 = true := by
  decide

/-- C1, amended.  For every conviction value in `0..=255` and both aye
flags, the packed byte produced by `create_vote` has bit 7 equal to
`aye OR bit 7 of the conviction`, and its low 7 bits equal the
conviction modulo 128. -/
theorem c1_vote_byte_amended :
    ∀ c : Nat, c < 256 → ∀ aye : Bool,
      Nat.testBit ((create_vote 0 aye c 0).vote.vote) 7 = (aye || Nat.testBit c 7)
      ∧ (create_vote 0 aye c 0).vote.vote % 128 = c % 128 := by
  set_option maxRecDepth 4096 in decide

/-- C1, witness: the amended theorem applied at conviction 3, aye. -/
theorem c1_vote_byte_amended_witness :
    Nat.testBit ((create_vote 0 true 3 0).vote.vote) 7 = (true || Nat.testBit 3 7)
    ∧ (create_vote 0 true 3 0).vote.vote % 128 = 3 % 128 :=
  c1_vote_byte_amended 3 (by norm_num) true

/-! ## C3 -/

/-- C3, counterexample.  The claim says resolution of any unknown name
fails with an `UnknownIdentity` error returned to the caller, not a
process abort.  On `"carol"` the source hits `panic!("invalid user")`
(src/main.rs:61): a process abort, not a returned error. -/
theorem c3_counterexample :
    userFromStr "carol" = ResolveOutcome.panicked "invalid user"
    ∧ userFromStr "carol" ≠ ResolveOutcome.err IdentityError.unknownIdentity := by
  constructor
  · decide
  · decide

/-- C3, amended.  Identity resolution accepts exactly `"alice"` and
`"bob"`, returning distinct deterministic identities; every other input
string makes the program panic (a process abort with the message
`"invalid user"`, not a recoverable error), and this happens during CLI
parsing, before any network activity (the run performs no effect at
all). -/
theorem c3_identity_resolution_amended :
    userFromStr "alice" = ResolveOutcome.ok User.alice
    ∧ userFromStr "bob" = ResolveOutcome.ok User.bob
    ∧ User.alice ≠ User.bob
    ∧ (∀ s : String, s ≠ "alice" → s ≠ "bob" →
        userFromStr s = ResolveOutcome.panicked "invalid user")
    ∧ (∀ (w : World) (cmd : Cmd) (s : String), s ≠ "alice" → s ≠ "bob" →
        runMain w s cmd = ([], ExitResult.panicked "invalid user")) := by
  refine ⟨by decide, by decide, by decide, ?_, ?_⟩
  · intro s h1 h2
    simp [userFromStr, h1, h2]
  · intro w cmd s h1 h2
    simp [runMain, userFromStr, h1, h2]

/-- C3, witness: the amended theorem applied at the unknown name
`"dave"`. -/
theorem c3_identity_resolution_witness :
    userFromStr "dave" = ResolveOutcome.panicked "invalid user" :=
  c3_identity_resolution_amended.2.2.2.1 "dave" (by decide) (by decide)

/-! ## C4 -/

/-- C4, counterexample.  The claim says every ill-formed hash string
(non-hex, or hex of a length other than 32 bytes) produces an error
returned to the caller rather than an abort.  The input `"abcd"` is
well-formed hex of 2 bytes, and the run aborts with the
`H256::from_slice` panic instead of returning an error
(src/main.rs:195). -/
theorem c4_counterexample :
    (runMain okWorld "alice" (Cmd.makeProposal "abcd" 7)).2
      = ExitResult.panicked h256PanicMsg := by
  decide

/-- C4, amended.  A hash string that is not valid hex (odd length or a
non-hex character) makes proposal construction fail with the hex error
returned to the caller; valid hex decoding to any byte length other than
32 makes `H256::from_slice` panic (a process abort); valid 32-byte hex
parses successfully. -/
theorem c4_hash_parsing_amended :
    ∀ s : String,
      (∀ e, hexDecode s = .error e → parseHash s = ParseHashOutcome.err e)
      ∧ (∀ bs, hexDecode s = .ok bs → bs.length ≠ 32 →
          parseHash s = ParseHashOutcome.panicked h256PanicMsg)
      ∧ (∀ bs, hexDecode s = .ok bs → bs.length = 32 →
          parseHash s = ParseHashOutcome.ok bs)
      ∧ (∀ (w : World) (len : Nat) (e : HashError), hexDecode s = .error e →
          runCommand w (Cmd.makeProposal s len) = ([], ExitResult.failure (hashErrString e)))
      ∧ (∀ (w : World) (len : Nat) (bs : List Nat), hexDecode s = .ok bs → bs.length ≠ 32 →
          runCommand w (Cmd.makeProposal s len) = ([], ExitResult.panicked h256PanicMsg)) := by
  intro s
  refine ⟨?_, ?_, ?_, ?_, ?_⟩
  · intro e he
    simp [parseHash, he]
  · intro bs hb hlen
    simp [parseHash, hb, hlen]
  · intro bs hb hlen
    simp [parseHash, hb, hlen]
  · intro w len e he
    simp [runCommand, parseHash, he]
  · intro w len bs hb hlen
    simp [runCommand, parseHash, hb, hlen]

/-- C4, witness: the amended theorem applied at the non-hex input
`"zz"`. -/
theorem c4_hash_parsing_witness :
    runCommand okWorld (Cmd.makeProposal "zz" 0)
      = ([], ExitResult.failure (hashErrString HashError.invalidChar)) :=
  (c4_hash_parsing_amended "zz").2.2.2.1 okWorld 0 HashError.invalidChar (by decide)

/-! ## C5 -/

/-- C5.  On every (error-free) finalized-block stream, `wait_for_event`
returns exactly the first event matching the requested type in arrival
order — scanning blocks, and each block's event list, in order — and
`notFound` when the stream ends without a match; moreover, once some
block of a stream prefix contains a match, the blocks after that prefix
are irrelevant (no further blocks are consumed). -/
theorem c5_wait_for_event_first_match :
    (∀ (t : EventTy) (bs : List (List Event)),
        wait_for_event t (bs.map Except.ok) =
          (match firstMatch t bs with
           | some e => WaitResult.found e
           | none => WaitResult.notFound))
    ∧ (∀ (t : EventTy) (xs ys : List (List Event)),
        (firstMatch t xs).isSome = true →
        wait_for_event t ((xs ++ ys).map Except.ok) = wait_for_event t (xs.map Except.ok)) := by
  constructor
  · exact wait_for_event_ok_eq
  · intro t xs ys h
    obtain ⟨e, he⟩ := Option.isSome_iff_exists.mp h
    have hm : firstMatch t (xs ++ ys) = some e := by
      unfold firstMatch at he ⊢
      rw [List.flatten_append, find_first_append, he]
      rfl
    rw [wait_for_event_ok_eq, wait_for_event_ok_eq, hm, he]

/-- C5, witness: a stream whose first block holds a match gives the same
result when more matching blocks follow. -/
theorem c5_wait_for_event_witness :
    wait_for_event tabledEv
        (([[Event.mk tabledEv []]] ++ [[Event.mk tabledEv [1]]]).map Except.ok)
      = wait_for_event tabledEv ([[Event.mk tabledEv []]].map Except.ok) :=
  c5_wait_for_event_first_match.2 tabledEv [[Event.mk tabledEv []]] [[Event.mk tabledEv [1]]]
    (by decide)

/-! ## C6 -/

/-- C6.  When the node accepts the proposal submission but finalization
reports a dispatch failure, `submit_and_watch` hands the error back, the
`MakeProposal` branch propagates it as an error exit, and the command
never subscribes to wait for the `Tabled` or `Started` events: the trace
stops at the waiting message and contains no event-wait at all. -/
theorem c6_dispatch_failure_stops :
    ∀ (w : World) (s : String) (len : Nat) (h : List Nat) (m : String),
      parseHash s = ParseHashOutcome.ok h →
      w.submitAccept = Except.ok () →
      w.finalizeRes = Except.error m →
      runCommand w (Cmd.makeProposal s len) =
        ([Effect.report (ReportItem.creatingProposal h len),
          Effect.submitTx (propose h len proposalDeposit),
          Effect.report ReportItem.waitingInBlock], ExitResult.failure m)
      ∧ countWaits (runCommand w (Cmd.makeProposal s len)).1 = 0 := by
  intro w s len h m hp hs hf
  have htr : runCommand w (Cmd.makeProposal s len) =
      ([Effect.report (ReportItem.creatingProposal h len),
        Effect.submitTx (propose h len proposalDeposit),
        Effect.report ReportItem.waitingInBlock], ExitResult.failure m) := by
    simp [runCommand, hp, submit_and_watch, hs, hf]
  refine ⟨htr, ?_⟩
  rw [htr]
  rfl

/-- C6, witness: the theorem applied to a world whose finalization
reports a dispatch failure, with the all-zero 32-byte hash. -/
theorem c6_dispatch_failure_witness :
    runCommand dispatchFailWorld (Cmd.makeProposal zeroHash64 0) =
      ([Effect.report (ReportItem.creatingProposal (List.replicate 32 0) 0),
        Effect.submitTx (propose (List.replicate 32 0) 0 proposalDeposit),
        Effect.report ReportItem.waitingInBlock], ExitResult.failure "dispatch failed")
    ∧ countWaits (runCommand dispatchFailWorld (Cmd.makeProposal zeroHash64 0)).1 = 0 :=
  c6_dispatch_failure_stops dispatchFailWorld zeroHash64 0 (List.replicate 32 0)
    "dispatch failed" (by decide) rfl rfl

/-! ## C2 -/

/-- C2, counterexample.  The claim says that when an awaited event wait
fails (here: the stream ends with no `Tabled`/`Started` event, the
`NotFound` case) the process does not exit with success.  In a world
where connection, submission and finalization succeed but both event
streams are empty, the `make-proposal` run still exits with success: the
wait results are only printed (src/main.rs:203-211 bind them without
`?`). -/
theorem c2_counterexample :
    (runMain okWorld "alice" (Cmd.makeProposal zeroHash64 0)).2 = ExitResult.success
    ∧ wait_for_event tabledEv okWorld.stream1 = WaitResult.notFound
    ∧ wait_for_event startedEv okWorld.stream2 = WaitResult.notFound := by
  refine ⟨by decide, by decide, by decide⟩

/-- C2, amended.  For every world and command (with a valid user), the
run exits successfully exactly when the connection and every
`?`-propagated step of the command succeed — connection, storage
queries, hash parsing, submission acceptance, finalization, and the
vote command's event decode; each such failure produces a non-success
exit carrying its message.  Event-wait failures are the exception:
`mainSuccess` does not depend on the event streams, so `make-proposal`
and `track-proposal-status` exit with success even when their awaited
events are never found. -/
theorem c2_exit_status_amended :
    ∀ (w : World) (u : String) (usr : User) (cmd : Cmd),
      userFromStr u = ResolveOutcome.ok usr →
      ((runMain w u cmd).2 = ExitResult.success ↔ mainSuccess w cmd = true) := by
  intro w u usr cmd hu
  obtain ⟨cr, al, ar, hr, fr, sa, fi, vf, s1, s2⟩ := w
  unfold runMain mainSuccess
  rw [hu]
  cases cr with
  | error m => cases cmd <;> simp [runCommand, Except.isOk, Except.toBool]
  | ok uc =>
    cases cmd with
    | showBalance =>
      cases al <;> cases ar <;> cases hr <;> cases fr <;>
        simp [runCommand, Except.isOk, Except.toBool]
    | createRemarkPreimage r =>
      cases sa <;> cases fi <;>
        simp [runCommand, submit_and_watch, Except.isOk, Except.toBool]
    | makeProposal s len =>
      cases hp : parseHash s <;> cases sa <;> cases fi <;>
        simp [runCommand, submit_and_watch, hp, Except.isOk, Except.toBool]
    | voteCmd i b c =>
      cases sa <;> cases fi <;> cases vf <;>
        simp [runCommand, submit_and_watch, Except.isOk, Except.toBool]
    | trackProposalStatus =>
      simp [runCommand, Except.isOk, Except.toBool]

/-- C2, witness: the amended theorem applied to the all-ok world and the
`track-proposal-status` command. -/
theorem c2_exit_status_witness :
    (runMain okWorld "alice" Cmd.trackProposalStatus).2 = ExitResult.success
      ↔ mainSuccess okWorld Cmd.trackProposalStatus = true :=
  c2_exit_status_amended okWorld "alice" User.alice Cmd.trackProposalStatus (by decide)

/-! ## C7 -/

/-- C7, counterexample.  The claim says `show-balance` performs exactly
two read-only storage queries.  In the all-ok world it performs three —
`system.account`, `balances.holds` and `balances.freezes`
(src/main.rs:165-174) — and zero submissions. -/
theorem c7_counterexample :
    countStorageQueries (runMain okWorld "alice" Cmd.showBalance).1 = 3
    ∧ countStorageQueries (runMain okWorld "alice" Cmd.showBalance).1 ≠ 2
    ∧ countSubmits (runMain okWorld "alice" Cmd.showBalance).1 = 0 := by
  refine ⟨by decide, by decide, by decide⟩

/-- C7, amended.  For every identity and every world, `show-balance`
performs zero transaction submissions and at most three read-only
storage queries; when every query succeeds it performs exactly three. -/
theorem c7_show_balance_amended :
    ∀ (w : World) (u : String) (usr : User),
      userFromStr u = ResolveOutcome.ok usr →
      countSubmits (runMain w u Cmd.showBalance).1 = 0
      ∧ countStorageQueries (runMain w u Cmd.showBalance).1 ≤ 3
      ∧ (w.connectRes = .ok () → w.atLatestRes = .ok () → w.accountRes = .ok () →
          w.holdsRes = .ok () → w.freezesRes = .ok () →
          countStorageQueries (runMain w u Cmd.showBalance).1 = 3) := by
  intro w u usr hu
  obtain ⟨cr, al, ar, hr, fr, sa, fi, vf, s1, s2⟩ := w
  unfold runMain runCommand
  rw [hu]
  cases cr <;> cases al <;> cases ar <;> cases hr <;> cases fr <;>
    simp_all [countSubmits, countStorageQueries, isSubmit, isStorageQuery, List.filter]

/-- C7, witness: the amended theorem applied to the all-ok world with
the default identity, all query hypotheses discharged. -/
theorem c7_show_balance_witness :
    countStorageQueries (runMain okWorld "alice" Cmd.showBalance).1 = 3 :=
  (c7_show_balance_amended okWorld "alice" User.alice (by decide)).2.2 rfl rfl rfl rfl rfl

/-! ## C8 -/

/-- C8.  For every remark byte string, when submission succeeds the
`create-remark-preimage` command reports a content length that is
exactly the byte length of the encoded inner `System::remark` call and a
content hash that is the BLAKE2b-256 digest (a 256-bit value: 32 bytes)
of those same encoded bytes; both are functions of the remark alone
(hence deterministic and computable before submission, as the trace
order shows: the image is printed before the submit effect). -/
theorem c8_remark_preimage_report :
    ∀ (w : World) (remark : List Nat) (evs : List Event),
      w.submitAccept = Except.ok () →
      w.finalizeRes = Except.ok evs →
      runCommand w (Cmd.createRemarkPreimage remark) =
        ([Effect.report (ReportItem.addingImage (systemRemarkCall remark)),
          Effect.submitTx (note_preimage (systemRemarkCall remark)),
          Effect.report ReportItem.waitingInBlock,
          Effect.report (ReportItem.preimageCreated
            (blake2b256 (systemRemarkCall remark)) (systemRemarkCall remark).length)],
         ExitResult.success)
      ∧ (blake2b256 (systemRemarkCall remark)).length = 32 := by
  intro w remark evs hs hf
  refine ⟨?_, blake2b256_length _⟩
  simp [runCommand, submit_and_watch, hs, hf]

/-- C8, witness: the theorem applied to the all-ok world and the remark
bytes `[1, 2, 3]`. -/
theorem c8_remark_preimage_witness :
    runCommand okWorld (Cmd.createRemarkPreimage [1, 2, 3]) =
      ([Effect.report (ReportItem.addingImage (systemRemarkCall [1, 2, 3])),
        Effect.submitTx (note_preimage (systemRemarkCall [1, 2, 3])),
        Effect.report ReportItem.waitingInBlock,
        Effect.report (ReportItem.preimageCreated
          (blake2b256 (systemRemarkCall [1, 2, 3])) (systemRemarkCall [1, 2, 3]).length)],
       ExitResult.success)
    ∧ (blake2b256 (systemRemarkCall [1, 2, 3])).length = 32 :=
  c8_remark_preimage_report okWorld [1, 2, 3] [] rfl rfl

/-! ## C9 -/

/-- C9.  Proposal construction is deterministic: two calls of the
proposal builder with identical hash, length and deposit produce
byte-identical encoded payloads (the builder is a pure function of its
three arguments). -/
theorem c9_propose_deterministic :
    ∀ (h1 h2 : List Nat) (l1 l2 d1 d2 : Nat),
      h1 = h2 → l1 = l2 → d1 = d2 →
      propose h1 l1 d1 = propose h2 l2 d2 := by
  intro h1 h2 l1 l2 d1 d2 hh hl hd
  rw [hh, hl, hd]

/-- C9, witness: the theorem applied at the zero hash, length 5 and the
fixed deposit. -/
theorem c9_propose_deterministic_witness :
    propose (List.replicate 32 0) 5 proposalDeposit
      = propose (List.replicate 32 0) 5 proposalDeposit :=
  c9_propose_deterministic _ _ _ _ _ _ rfl rfl rfl

/-! ## C10 -/

/-- C10.  The `vote` subcommand always builds a Standard vote with
`aye = true` (src/main.rs:219 passes the literal `true`): the packed
byte equals `conviction OR 0x80`, bit 7 is always set, and in every
world the submitted payload is the encoding of that aye-vote call. -/
theorem c10_vote_always_aye :
    ∀ (w : World) (i b c : Nat),
      (create_vote i true c b).vote.vote = (c ||| 128)
      ∧ Nat.testBit ((create_vote i true c b).vote.vote) 7 = true
      ∧ Effect.submitTx (voteTx (create_vote i true c b))
          ∈ (runCommand w (Cmd.voteCmd i b c)).1 := by
  intro w i b c
  have h128 : Nat.testBit 128 7 = true := by decide
  refine ⟨rfl, ?_, ?_⟩
  · rw [create_vote_byte]
    simp [Nat.testBit_lor, h128]
  · obtain ⟨cr, al, ar, hr, fr, sa, fi, vf, s1, s2⟩ := w
    cases sa <;> cases fi <;> cases vf <;> simp [runCommand, submit_and_watch]
